import Mathlib

/-
Verification of the sync-run reporting pipeline of gsync.py (repository
zsimic/roaming).  Python `str` values are modelled as `List Char`; the
relevant functions of the script (`ultra_short_path`, the two regexes,
`run_command`'s fatal handling and the reporting loop of `perform_sync`)
are translated into executable Lean definitions below.
-/

namespace GSync

/-- Python strings are modelled as lists of characters. -/
abbrev PyStr := List Char

/-- Python str.strip() whitespace test (the ASCII whitespace characters,
which are the only ones the synchronizer's diagnostics can contain). -/
def isPySpace (c : Char) : Bool :=
  c == ' ' || c == '\t' || c == '\n' || c == '\r' || c == '\x0b' || c == '\x0c'

/-- Python `s.strip()`: drop whitespace from both ends. -/
def pyStrip (s : PyStr) : PyStr :=
  ((s.dropWhile isPySpace).reverse.dropWhile isPySpace).reverse

/-- Python `s.rstrip(sep)` for `sep` the path separator, as used by
`posixpath.dirname`. -/
def rstripSlash (s : PyStr) : PyStr :=
  (s.reverse.dropWhile (fun c => c == '/')).reverse

/-- The slice `p[: p.rfind(sep) + 1]` of `posixpath.dirname`: everything up to
and including the last slash (`[]` when the string has no slash). -/
def headUpToLastSlash : PyStr → PyStr
  | [] => []
  | c :: rest =>
    if '/' ∈ rest then c :: headUpToLastSlash rest
    else if c = '/' then ['/'] else []

/-- `posixpath.dirname` (`os.path.dirname` on the platform the script targets):
take the slice up to the last slash, then strip trailing slashes unless the
slice is empty or consists only of slashes. -/
def pyDirname (p : PyStr) : PyStr :=
  if headUpToLastSlash p = [] ∨ (headUpToLastSlash p).all (fun c => c == '/') then
    headUpToLastSlash p
  else rstripSlash (headUpToLastSlash p)

/-- Worker for Python `s.replace(old, new)` with a non-empty pattern: scan
left to right, emitting `new` at each occurrence of `old`; the counter `k`
holds the number of characters of a just-replaced occurrence that remain to
be skipped, so occurrences never overlap. -/
def replAux (old new : PyStr) : Nat → PyStr → PyStr
  | _, [] => []
  | k + 1, _ :: rest => replAux old new k rest
  | 0, c :: rest =>
    if old.isPrefixOf (c :: rest) then new ++ replAux old new (old.length - 1) rest
    else c :: replAux old new 0 rest

/-- Python `s.replace(old, new)`: replace every occurrence, left to right.
For an empty pattern Python inserts `new` before every character and at the
end, which the first branch reproduces. -/
def pyReplace (s old new : PyStr) : PyStr :=
  match old with
  | [] => new ++ s.foldr (fun c acc => c :: (new ++ acc)) []
  | _ :: _ => replAux old new 0 s

/-- Python `sub in hay` (substring containment). -/
def pyContains (sub : PyStr) : PyStr → Bool
  | [] => sub.isPrefixOf ([] : PyStr)
  | c :: rest => sub.isPrefixOf (c :: rest) || pyContains sub rest

/-- Python `error.split(newline)` as performed by the reporting loop. -/
def pyLines (s : PyStr) : List PyStr := s.splitOn '\n'

/-- MOUNTED_TARGET from gsync.py. -/
def MOUNTED_TARGET : PyStr := "/Volumes/GoogleDrive/My Drive/gdrive".data

/-- LOCAL_TARGET = os.path.expanduser of the tilde-gdrive path; `home` stands
for the HOME directory with trailing slashes stripped, exactly the string that
expanduser substitutes for the tilde. -/
def LOCAL_TARGET (home : PyStr) : PyStr := home ++ '/' :: "gdrive".data

/-- LTP = os.path.dirname(LOCAL_TARGET). -/
def LTP (home : PyStr) : PyStr := pyDirname (LOCAL_TARGET home)

/-- MTP = os.path.dirname(MOUNTED_TARGET). -/
def MTP : PyStr := pyDirname MOUNTED_TARGET

/-- The two textual substitutions performed by ultra_short_path:
replace LTP by the tilde alias and MTP by the mount alias. -/
def applyAliases (home s : PyStr) : PyStr :=
  pyReplace (pyReplace s (LTP home) ['~']) MTP ('/' :: ['M'])

/-- ultra_short_path from gsync.py line 61: dirname, then both alias
substitutions. -/
def ultra_short_path (home p : PyStr) : PyStr :=
  applyAliases home (pyDirname p)

/-- Literal marker starting every begin-operation line. -/
def BGN_MARK : PyStr := "[BGN] ".data

/-- Literal marker starting every delete line (begin marker plus verb). -/
def DEL_MARK : PyStr := "[BGN] Deleting ".data

/-- First alternative of the verb group of REGEX_UPDATE. -/
def VERB_UPD : PyStr := "Updating file".data

/-- Second alternative of the verb group of REGEX_UPDATE. -/
def VERB_CPY : PyStr := "Copying".data

/-- Literal separator between subject and source path in both regexes. -/
def SEP_FROM : PyStr := " from ".data

/-- Literal separator between source and destination path in REGEX_UPDATE. -/
def SEP_TO : PyStr := " to ".data

/-- Completion marker tested by the reporting loop. -/
def SYNC_COMPLETE : PyStr := "Synchronization complete".data

/-- The no-op marker tested against the whole diagnostic stream. -/
def NOTHING_TO_DO : PyStr := "Nothing to do".data

/-- UNISON_IGNORE_OUTPUT from gsync.py line 37. -/
def UNISON_IGNORE_OUTPUT : List PyStr :=
  ["Contacting".data, "Looking".data, "Reconciling".data, "Propagating".data,
   "UNISON".data, "[END]".data, "Saving".data, "Unison".data, "Nothing".data]

/-- Python `line.startswith(tuple)`. -/
def startsWithAny (s : PyStr) (ps : List PyStr) : Bool :=
  ps.any (fun p => p.isPrefixOf s)

/-- The regex dot matches every character except a newline; a dot-plus group
may only capture newline-free text. -/
def noNl (s : PyStr) : Bool := s.all (fun c => c != '\n')

/-- All decompositions `s = pre ++ sep ++ post`, listed with `pre` in order of
increasing length (i.e. split positions left to right). -/
def allSplits (sep : PyStr) : PyStr → List (PyStr × PyStr)
  | [] => if sep.isPrefixOf ([] : PyStr) then [([], [])] else []
  | c :: rest =>
    (if sep.isPrefixOf (c :: rest) then [([], (c :: rest).drop sep.length)] else []) ++
      (allSplits sep rest).map (fun pr => (c :: pr.1, pr.2))

/-- Return `f x` for the last list element on which `f` succeeds.  Applied to
`allSplits` output this realises greedy backtracking: the split with the
longest first component that lets the rest of the pattern match wins. -/
def pickLast {α β : Type} (f : α → Option β) : List α → Option β
  | [] => none
  | x :: xs =>
    match pickLast f xs with
    | some r => some r
    | none => f x

/-- Regex fragment `(/.+)` at the end of the pattern: a slash followed by a
greedy non-empty run of non-newline characters; trailing input (re.match does
not anchor the end) is left unconsumed. -/
def matchSlashDot : PyStr → Option PyStr
  | '/' :: d =>
    let g := d.takeWhile (fun c => c != '\n')
    if g = [] then none else some ('/' :: g)
  | _ => none

/-- Regex fragment `(/.+) to (/.+)`: returns source and destination captures
with greedy backtracking on the inner dot-plus. -/
def matchToTail : PyStr → Option (PyStr × PyStr)
  | '/' :: b =>
    pickLast
      (fun pr =>
        if pr.1 ≠ [] ∧ noNl pr.1 = true then
          (matchSlashDot pr.2).map (fun g4 => ('/' :: pr.1, g4))
        else none)
      (allSplits SEP_TO b)
  | _ => none

/-- Regex fragment `(.+) from (/.+) to (/.+)`: subject, source, destination. -/
def matchUpdateTail (t : PyStr) : Option (PyStr × PyStr × PyStr) :=
  pickLast
    (fun pr =>
      if pr.1 ≠ [] ∧ noNl pr.1 = true then
        (matchToTail pr.2).map (fun g => (pr.1, g.1, g.2))
      else none)
    (allSplits SEP_FROM t)

/-- REGEX_UPDATE.match(line): the pattern of gsync.py line 38 under
`re.match` semantics (anchored at the start, not at the end).  The verb
alternation is deterministic because its two alternatives start with
different characters. -/
def matchUpdate (line : PyStr) : Option (PyStr × PyStr × PyStr × PyStr) :=
  if BGN_MARK.isPrefixOf line then
    if (VERB_UPD ++ [' ']).isPrefixOf (line.drop BGN_MARK.length) then
      (matchUpdateTail ((line.drop BGN_MARK.length).drop (VERB_UPD ++ [' ']).length)).map
        (fun g => (VERB_UPD, g.1, g.2.1, g.2.2))
    else if (VERB_CPY ++ [' ']).isPrefixOf (line.drop BGN_MARK.length) then
      (matchUpdateTail ((line.drop BGN_MARK.length).drop (VERB_CPY ++ [' ']).length)).map
        (fun g => (VERB_CPY, g.1, g.2.1, g.2.2))
    else none
  else none

/-- REGEX_DELETE.match(line): the pattern of gsync.py line 39. -/
def matchDelete (line : PyStr) : Option (PyStr × PyStr) :=
  if DEL_MARK.isPrefixOf line then
    pickLast
      (fun pr =>
        if pr.1 ≠ [] ∧ noNl pr.1 = true then
          (matchSlashDot pr.2).map (fun g => (pr.1, g))
        else none)
      (allSplits SEP_FROM (line.drop DEL_MARK.length))
  else none

/-- SHORT_ACTION_NAME.get(verb, verb) from gsync.py lines 40-43. -/
def SHORT_ACTION_NAME (verb : PyStr) : PyStr :=
  if verb = VERB_CPY then "added  ".data
  else if verb = VERB_UPD then "updated".data
  else verb

/-- Disposition of one diagnostic line in the reporting loop. -/
inductive LineAction where
  | discard
  | summary (line : PyStr)
  | entry (text : PyStr)
  | warn (line : PyStr)
deriving DecidableEq

/-- Classification of one already-stripped line, following gsync.py lines
128-149: skip empty and noise-prefixed lines, keep completion lines verbatim,
render update/copy and delete matches, warn on everything else. -/
def classifyStripped (home line : PyStr) : LineAction :=
  if line = [] then .discard
  else if startsWithAny line UNISON_IGNORE_OUTPUT then .discard
  else if SYNC_COMPLETE.isPrefixOf line then .summary line
  else if BGN_MARK.isPrefixOf line then
    match matchUpdate line with
    | some (verb, subj, src, dst) =>
      .entry (SHORT_ACTION_NAME verb ++ ' ' :: subj ++ " (".data ++
        ultra_short_path home src ++ " -> ".data ++ ultra_short_path home dst ++ ")".data)
    | none =>
      match matchDelete line with
      | some (subj, p) =>
        .entry ("deleted ".data ++ subj ++ " (".data ++ ultra_short_path home p ++ ")".data)
      | none => .warn line
  else .warn line

/-- The loop strips each raw line before classifying it. -/
def classifyLine (home raw : PyStr) : LineAction :=
  classifyStripped home (pyStrip raw)

/-- The reporting loop: fold the classification over the lines, collecting
the overview entries (first component) and the warned lines (second). -/
def processLines (home : PyStr) : List PyStr → List PyStr × List PyStr
  | [] => ([], [])
  | l :: rest =>
    let tail := processLines home rest
    match classifyLine home l with
    | .discard => tail
    | .summary s => (s :: tail.1, tail.2)
    | .entry e => (e :: tail.1, tail.2)
    | .warn s => (tail.1, s :: tail.2)

/-- run_command with fatal=True (gsync.py lines 90-97): a non-zero (truthy)
return code exits the process with that code, otherwise the captured output
and error streams are returned. -/
def run_command (returncode : Int) (output error : PyStr) : Except Int (PyStr × PyStr) :=
  if returncode = 0 then .ok (output, error) else .error returncode

/-- Observable outcome of one perform_sync run, as far as the claims are
concerned: a fatal process exit, the early no-op return, a displayed report
(count, overview entries, warned lines), or a silent finish. -/
inductive SyncOutcome where
  | fatalExit (code : Int)
  | noop
  | report (count : Nat) (overview warnings : List PyStr)
  | silent (warnings : List PyStr)
deriving DecidableEq

/-- perform_sync (gsync.py lines 123-152) as a function of the synchronizer's
return code and captured streams: the fatal run_command call, the
nothing-to-do early return, the reporting loop, and the final display whose
count is the overview length minus one. -/
def perform_sync (home : PyStr) (returncode : Int) (output error : PyStr) : SyncOutcome :=
  match run_command returncode output error with
  | .error code => .fatalExit code
  | .ok (_, err) =>
    if pyContains NOTHING_TO_DO err then .noop
    else if (processLines home (pyLines err)).1 = [] then
      .silent (processLines home (pyLines err)).2
    else
      .report ((processLines home (pyLines err)).1.length - 1)
        (processLines home (pyLines err)).1 (processLines home (pyLines err)).2

/-- The report displayed by the run, if any: its modification count and its
overview entries. -/
def displayedReport : SyncOutcome → Option (Nat × List PyStr)
  | .report c ov _ => some (c, ov)
  | _ => none

/-- The lines surfaced as warnings by the run. -/
def loggedWarnings : SyncOutcome → List PyStr
  | .report _ _ w => w
  | .silent w => w
  | _ => []

/-- A line is kept in the overview exactly when it classifies as a summary
line or a rendered added/updated/deleted entry. -/
def keptLine (home l : PyStr) : Bool :=
  match classifyLine home l with
  | .summary _ => true
  | .entry _ => true
  | _ => false

/-- Whether an outcome is a fatal process exit. -/
def isFatal : SyncOutcome → Bool
  | .fatalExit _ => true
  | _ => false

/-- Representative HOME directory used by the concrete instances below. -/
def homeW : PyStr := "/Users/me".data

/-- Representative mounted-side path used by the concrete instances below. -/
def mountedPathW : PyStr := "/Volumes/GoogleDrive/My Drive/gdrive/a/b".data

theorem run_command_zero (output error : PyStr) :
    run_command 0 output error = Except.ok (output, error) := rfl

theorem perform_sync_zero (home output error : PyStr) :
    perform_sync home 0 output error =
      (if pyContains NOTHING_TO_DO error = true then SyncOutcome.noop
       else if (processLines home (pyLines error)).1 = [] then
         SyncOutcome.silent (processLines home (pyLines error)).2
       else
         SyncOutcome.report ((processLines home (pyLines error)).1.length - 1)
           (processLines home (pyLines error)).1 (processLines home (pyLines error)).2) := rfl

/-- C1 (counterexample): with exit code 2 and a diagnostic stream that is
exactly the nothing-to-do marker, the run terminates fatally with code 2 —
it is not the normal no-op outcome the claim promises for a marker-bearing
stream. -/
theorem C1_marker_not_honored_on_nonzero_exit :
    perform_sync homeW 2 [] NOTHING_TO_DO = SyncOutcome.fatalExit 2 ∧
    (perform_sync homeW 2 [] NOTHING_TO_DO == SyncOutcome.noop) = false := by
  decide

/-- C1 (amended): a non-zero synchronizer exit code terminates the run
fatally with that code unconditionally, because the fatal check of
run_command runs before the marker test of perform_sync; the nothing-to-do
marker produces the normal no-op outcome only when the exit code is zero. -/
theorem C1_nonzero_exit_always_fatal (home : PyStr) (rc : Int) (output error : PyStr) :
    (rc ≠ 0 → perform_sync home rc output error = SyncOutcome.fatalExit rc) ∧
    (rc = 0 → pyContains NOTHING_TO_DO error = true →
      perform_sync home rc output error = SyncOutcome.noop) := by
  constructor
  · intro h
    simp [perform_sync, run_command, h]
  · intro h0 hm
    subst h0
    simp [perform_sync, run_command, hm]

/-- C1 (witness): the amended claim instantiated at exit codes 1 and 0, with
the marker stream. -/
theorem C1_nonzero_exit_always_fatal_witness :
    perform_sync homeW 1 [] NOTHING_TO_DO = SyncOutcome.fatalExit 1 ∧
    perform_sync homeW 0 [] NOTHING_TO_DO = SyncOutcome.noop :=
  ⟨(C1_nonzero_exit_always_fatal homeW 1 [] NOTHING_TO_DO).1 (by decide),
   (C1_nonzero_exit_always_fatal homeW 0 [] NOTHING_TO_DO).2 rfl (by decide)⟩

/-- C4: a diagnostic stream containing the literal nothing-to-do marker
anywhere yields no displayed report, whatever else the stream contains and
whatever the exit code. -/
theorem C4_marker_suppresses_report (home : PyStr) (rc : Int) (output error : PyStr)
    (h : pyContains NOTHING_TO_DO error = true) :
    displayedReport (perform_sync home rc output error) = none := by
  by_cases h0 : rc = 0
  · subst h0
    simp [perform_sync, run_command, h, displayedReport]
  · simp [perform_sync, run_command, h0, displayedReport]

/-- C4 (witness): a stream holding both an otherwise-matching change line and
the marker displays nothing. -/
theorem C4_marker_suppresses_report_witness :
    displayedReport (perform_sync homeW 0 []
      ("[BGN] Copying a from /x to /y\n".data ++ NOTHING_TO_DO)) = none :=
  C4_marker_suppresses_report homeW 0 [] ("[BGN] Copying a from /x to /y\n".data ++ NOTHING_TO_DO)
    (by decide)

/-- C8: the reporting stage never terminates the run — with a zero exit code
the outcome is never a fatal exit, whatever the diagnostic stream contains —
and the per-line classification is total, assigning every line (malformed
ones included) exactly one of the four non-fatal dispositions. -/
theorem C8_reporter_total_never_fatal (home output error : PyStr) :
    isFatal (perform_sync home 0 output error) = false ∧
    (∀ raw : PyStr, classifyLine home raw = LineAction.discard ∨
      (∃ s, classifyLine home raw = LineAction.summary s) ∨
      (∃ e, classifyLine home raw = LineAction.entry e) ∨
      (∃ w, classifyLine home raw = LineAction.warn w)) := by
  constructor
  · rw [perform_sync_zero]
    by_cases hm : pyContains NOTHING_TO_DO error = true
    · simp [hm, isFatal]
    · by_cases hov : (processLines home (pyLines error)).1 = []
      · simp [hm, hov, isFatal]
      · simp [hm, hov, isFatal]
  · intro raw
    cases h : classifyLine home raw with
    | discard => exact Or.inl rfl
    | summary s => exact Or.inr (Or.inl ⟨s, rfl⟩)
    | entry e => exact Or.inr (Or.inr (Or.inl ⟨e, rfl⟩))
    | warn w => exact Or.inr (Or.inr (Or.inr ⟨w, rfl⟩))

theorem classifyLine_discard_of_noise (home raw : PyStr)
    (h : pyStrip raw = [] ∨ startsWithAny (pyStrip raw) UNISON_IGNORE_OUTPUT = true) :
    classifyLine home raw = LineAction.discard := by
  unfold classifyLine classifyStripped
  by_cases he : pyStrip raw = []
  · rw [if_pos he]
  · rcases h with h | h
    · exact absurd h he
    · rw [if_neg he, if_pos h]

theorem processLines_eq_nil (home : PyStr) (ls : List PyStr)
    (h : ∀ l ∈ ls, classifyLine home l = LineAction.discard) :
    processLines home ls = ([], []) := by
  induction ls with
  | nil => rfl
  | cons a t ih =>
    have ha := h a (List.mem_cons_self a t)
    have ht := ih (fun l hl => h l (List.mem_cons_of_mem a hl))
    simp [processLines, ha, ht]

/-- C5: when every line of the diagnostic text is, after trimming, empty or
noise-prefixed, the run displays no report and surfaces no warning. -/
theorem C5_noise_only_no_output (home output error : PyStr)
    (h : ∀ l ∈ pyLines error,
      pyStrip l = [] ∨ startsWithAny (pyStrip l) UNISON_IGNORE_OUTPUT = true) :
    displayedReport (perform_sync home 0 output error) = none ∧
    loggedWarnings (perform_sync home 0 output error) = [] := by
  rw [perform_sync_zero]
  by_cases hm : pyContains NOTHING_TO_DO error = true
  · simp [hm, displayedReport, loggedWarnings]
  · have hp : processLines home (pyLines error) = ([], []) :=
      processLines_eq_nil home _ (fun l hl => classifyLine_discard_of_noise home l (h l hl))
    simp [hm, hp, displayedReport, loggedWarnings]

/-- C5 (witness): a stream of blank and noise-prefixed lines yields no report
and no warnings. -/
theorem C5_noise_only_no_output_witness :
    displayedReport (perform_sync homeW 0 []
      "  Contacting server...\n\nPropagating updates".data) = none ∧
    loggedWarnings (perform_sync homeW 0 []
      "  Contacting server...\n\nPropagating updates".data) = [] :=
  C5_noise_only_no_output homeW [] "  Contacting server...\n\nPropagating updates".data
    (by decide)

theorem processLines_fst_length (home : PyStr) (ls : List PyStr) :
    ((processLines home ls).1).length = ls.countP (keptLine home) := by
  induction ls with
  | nil => rfl
  | cons a t ih =>
    rw [List.countP_cons]
    cases h : classifyLine home a <;>
      simp [processLines, keptLine, h, ih]

/-- C2: whenever a report is displayed, its modification count is the number
of lines kept as Added/Updated/Deleted/SummaryLine entries minus one, whether
or not a summary line is among them. -/
theorem C2_count_is_kept_minus_one (home output error : PyStr) (c : Nat) (ov w : List PyStr)
    (h : perform_sync home 0 output error = SyncOutcome.report c ov w) :
    c = (pyLines error).countP (keptLine home) - 1 := by
  rw [perform_sync_zero] at h
  by_cases hm : pyContains NOTHING_TO_DO error = true
  · rw [if_pos hm] at h
    cases h
  · rw [if_neg hm] at h
    by_cases hov : (processLines home (pyLines error)).1 = []
    · rw [if_pos hov] at h
      cases h
    · rw [if_neg hov] at h
      have hc := (SyncOutcome.report.injEq _ _ _ _ _ _).mp h
      rw [← hc.1, processLines_fst_length]

/-- C2 (witness): a report produced by a single delete line and no summary
line displays the count one less than the single kept entry. -/
theorem C2_count_is_kept_minus_one_witness :
    0 = (pyLines "[BGN] Deleting f from /Users/me/gdrive/x".data).countP (keptLine homeW) - 1 :=
  C2_count_is_kept_minus_one homeW [] "[BGN] Deleting f from /Users/me/gdrive/x".data
    0 ["deleted f (~/gdrive)".data] [] (by decide)

/-- C10: a trimmed-non-empty line that is not noise, not a completion line,
and matches neither regex leaves the overview (hence the rendered report and
its count) unchanged and adds exactly its trimmed text to the warnings. -/
theorem C10_unrecognized_line_frame (home raw : PyStr) (rest : List PyStr)
    (h1 : pyStrip raw ≠ [])
    (h2 : startsWithAny (pyStrip raw) UNISON_IGNORE_OUTPUT = false)
    (h3 : SYNC_COMPLETE.isPrefixOf (pyStrip raw) = false)
    (h4 : matchUpdate (pyStrip raw) = none)
    (h5 : matchDelete (pyStrip raw) = none) :
    (processLines home (raw :: rest)).1 = (processLines home rest).1 ∧
    (processLines home (raw :: rest)).2 = pyStrip raw :: (processLines home rest).2 := by
  have hw : classifyLine home raw = LineAction.warn (pyStrip raw) := by
    unfold classifyLine classifyStripped
    rw [if_neg h1, if_neg (by simp [h2]), if_neg (by simp [h3])]
    by_cases hb : BGN_MARK.isPrefixOf (pyStrip raw) = true
    · rw [if_pos hb, h4, h5]
    · rw [if_neg hb]
  constructor <;> simp [processLines, hw]

theorem take_eq_of_isPre {p t : PyStr} (h : p <+: t) {n : Nat} (hn : n ≤ p.length) :
    t.take n = p.take n := by
  obtain ⟨s, rfl⟩ := h
  exact List.take_append_of_le_length hn

theorem isPrefixOf_false_of_take {p q t : PyStr} (n : Nat) (hp : p <+: t)
    (hnp : n ≤ p.length) (hnq : n ≤ q.length) (hne : q.take n ≠ p.take n) :
    q.isPrefixOf t = false := by
  rw [Bool.eq_false_iff]
  intro hq
  rw [ List.isPrefixOf_iff_prefix] at hq
  exact hne ((take_eq_of_isPre hq hnq).symm.trans (take_eq_of_isPre hp hnp))

theorem startsWithAny_false_of_bgn {t : PyStr} (h : BGN_MARK <+: t) :
    startsWithAny t UNISON_IGNORE_OUTPUT = false := by
  have h1 : ("Contacting".data).isPrefixOf t = false :=
    isPrefixOf_false_of_take 1 h (by decide) (by decide) (by decide)
  have h2 : ("Looking".data).isPrefixOf t = false :=
    isPrefixOf_false_of_take 1 h (by decide) (by decide) (by decide)
  have h3 : ("Reconciling".data).isPrefixOf t = false :=
    isPrefixOf_false_of_take 1 h (by decide) (by decide) (by decide)
  have h4 : ("Propagating".data).isPrefixOf t = false :=
    isPrefixOf_false_of_take 1 h (by decide) (by decide) (by decide)
  have h5 : ("UNISON".data).isPrefixOf t = false :=
    isPrefixOf_false_of_take 1 h (by decide) (by decide) (by decide)
  have h6 : ("[END]".data).isPrefixOf t = false :=
    isPrefixOf_false_of_take 2 h (by decide) (by decide) (by decide)
  have h7 : ("Saving".data).isPrefixOf t = false :=
    isPrefixOf_false_of_take 1 h (by decide) (by decide) (by decide)
  have h8 : ("Unison".data).isPrefixOf t = false :=
    isPrefixOf_false_of_take 1 h (by decide) (by decide) (by decide)
  have h9 : ("Nothing".data).isPrefixOf t = false :=
    isPrefixOf_false_of_take 1 h (by decide) (by decide) (by decide)
  simp [startsWithAny, UNISON_IGNORE_OUTPUT, h1, h2, h3, h4, h5, h6, h7, h8, h9]

theorem syncComplete_false_of_bgn {t : PyStr} (h : BGN_MARK <+: t) :
    SYNC_COMPLETE.isPrefixOf t = false :=
  isPrefixOf_false_of_take 1 h (by decide) (by decide) (by decide)

theorem matchUpdate_some_bgn {t : PyStr} {x : PyStr × PyStr × PyStr × PyStr}
    (h : matchUpdate t = some x) : BGN_MARK <+: t := by
  unfold matchUpdate at h
  by_cases hb : BGN_MARK.isPrefixOf t = true
  · exact List.isPrefixOf_iff_prefix.mp hb
  · rw [if_neg hb] at h
    cases h

theorem matchDelete_some_del {t : PyStr} {x : PyStr × PyStr}
    (h : matchDelete t = some x) : DEL_MARK <+: t := by
  unfold matchDelete at h
  by_cases hb : DEL_MARK.isPrefixOf t = true
  · exact List.isPrefixOf_iff_prefix.mp hb
  · rw [if_neg hb] at h
    cases h

theorem bgn_of_del {t : PyStr} (h : DEL_MARK <+: t) : BGN_MARK <+: t :=
  (show BGN_MARK <+: DEL_MARK from ⟨"Deleting ".data, by decide⟩).trans h

theorem matchUpdate_none_of_del {t : PyStr} (h : DEL_MARK <+: t) :
    matchUpdate t = none := by
  obtain ⟨s, rfl⟩ := h
  have hsplit : DEL_MARK ++ s = BGN_MARK ++ ("Deleting ".data ++ s) := by
    rw [← List.append_assoc]
    rfl
  have hrest : (DEL_MARK ++ s).drop BGN_MARK.length = "Deleting ".data ++ s := by
    rw [hsplit, List.drop_left]
  have hdel : ("Deleting ".data : PyStr) <+: "Deleting ".data ++ s :=
    List.prefix_append _ _
  have hu : (VERB_UPD ++ [' ']).isPrefixOf ("Deleting ".data ++ s) = false :=
    isPrefixOf_false_of_take 1 hdel (by decide) (by decide) (by decide)
  have hc : (VERB_CPY ++ [' ']).isPrefixOf ("Deleting ".data ++ s) = false :=
    isPrefixOf_false_of_take 1 hdel (by decide) (by decide) (by decide)
  unfold matchUpdate
  rw [if_pos (show BGN_MARK.isPrefixOf (DEL_MARK ++ s) = true by
        rw [ List.isPrefixOf_iff_prefix, hsplit]
        exact List.prefix_append _ _),
    hrest, hu, hc]
  simp

/-- C6: for every line whose stripped text matches the update/copy pattern
with captured verb Copying, the loop records an entry whose label is the
padded display label added, with the subject and both captured paths rendered
through the path-shortening transform. -/
theorem C6_copy_renders_added (home raw subj src dst : PyStr)
    (h : matchUpdate (pyStrip raw) = some (VERB_CPY, subj, src, dst)) :
    classifyLine home raw = LineAction.entry
      ("added  ".data ++ ' ' :: subj ++ " (".data ++ ultra_short_path home src ++
        " -> ".data ++ ultra_short_path home dst ++ ")".data) := by
  have hb : BGN_MARK <+: pyStrip raw := matchUpdate_some_bgn h
  have hbb : BGN_MARK.isPrefixOf (pyStrip raw) = true := by
    rw [ List.isPrefixOf_iff_prefix]
    exact hb
  have hne : pyStrip raw ≠ [] := by
    intro he
    rw [he, List.prefix_nil] at hb
    exact absurd hb (by decide)
  unfold classifyLine classifyStripped
  rw [if_neg hne, if_neg (by simp [startsWithAny_false_of_bgn hb]),
    if_neg (by rw [syncComplete_false_of_bgn hb]; decide), if_pos hbb, h]
  rfl

/-- C6 (witness): a concrete Copying line between the mounted and the local
target trees. -/
theorem C6_copy_renders_added_witness :
    classifyLine homeW
      "[BGN] Copying foo.txt from /Volumes/GoogleDrive/My Drive/gdrive/a to /Users/me/gdrive/a".data
      = LineAction.entry
        ("added  ".data ++ ' ' :: "foo.txt".data ++ " (".data ++
          ultra_short_path homeW "/Volumes/GoogleDrive/My Drive/gdrive/a".data ++
          " -> ".data ++ ultra_short_path homeW "/Users/me/gdrive/a".data ++ ")".data) :=
  C6_copy_renders_added homeW
    "[BGN] Copying foo.txt from /Volumes/GoogleDrive/My Drive/gdrive/a to /Users/me/gdrive/a".data
    "foo.txt".data "/Volumes/GoogleDrive/My Drive/gdrive/a".data "/Users/me/gdrive/a".data
    (by decide)

/-- C7: for every line whose stripped text matches the delete pattern, the
loop records the entry deleted subject (shortened path), built from the two
captured groups; such a line can never match the update pattern first. -/
theorem C7_delete_renders (home raw subj p : PyStr)
    (h : matchDelete (pyStrip raw) = some (subj, p)) :
    classifyLine home raw = LineAction.entry
      ("deleted ".data ++ subj ++ " (".data ++ ultra_short_path home p ++ ")".data) := by
  have hd : DEL_MARK <+: pyStrip raw := matchDelete_some_del h
  have hb : BGN_MARK <+: pyStrip raw := bgn_of_del hd
  have hbb : BGN_MARK.isPrefixOf (pyStrip raw) = true := by
    rw [ List.isPrefixOf_iff_prefix]
    exact hb
  have hne : pyStrip raw ≠ [] := by
    intro he
    rw [he, List.prefix_nil] at hb
    exact absurd hb (by decide)
  unfold classifyLine classifyStripped
  rw [if_neg hne, if_neg (by simp [startsWithAny_false_of_bgn hb]),
    if_neg (by rw [syncComplete_false_of_bgn hb]; decide), if_pos hbb,
    matchUpdate_none_of_del hd, h]

/-- C7 (witness): a concrete delete line under the local target tree. -/
theorem C7_delete_renders_witness :
    classifyLine homeW "[BGN] Deleting old.txt from /Users/me/gdrive/docs".data
      = LineAction.entry
        ("deleted ".data ++ "old.txt".data ++ " (".data ++
          ultra_short_path homeW "/Users/me/gdrive/docs".data ++ ")".data) :=
  C7_delete_renders homeW "[BGN] Deleting old.txt from /Users/me/gdrive/docs".data
    "old.txt".data "/Users/me/gdrive/docs".data (by decide)

theorem replAux_length (old new : PyStr) (hn : new.length ≤ old.length) :
    ∀ (k : Nat) (s : PyStr), (replAux old new k s).length + min k s.length ≤ s.length := by
  intro k s
  induction s generalizing k with
  | nil => cases k <;> simp [replAux]
  | cons c rest ih =>
    cases k with
    | succ k =>
      have h := ih k
      simp only [replAux, List.length_cons]
      omega
    | zero =>
      simp only [replAux]
      split
      · next hpre =>
        have hol : old.length ≤ rest.length + 1 := by
          have h' := (List.isPrefixOf_iff_prefix.mp hpre).length_le
          simpa using h'
        have h := ih (old.length - 1)
        simp only [List.length_append, List.length_cons]
        omega
      · have h := ih 0
        simp only [List.length_cons]
        omega

theorem pyReplace_length_le (s old new : PyStr) (h0 : old ≠ [])
    (hn : new.length ≤ old.length) : (pyReplace s old new).length ≤ s.length := by
  match old, h0 with
  | o :: oldTail, _ =>
    have h := replAux_length (o :: oldTail) new hn 0 s
    simpa [pyReplace] using h

theorem rstripSlash_length_le (s : PyStr) : (rstripSlash s).length ≤ s.length := by
  unfold rstripSlash
  rw [List.length_reverse]
  have h : (s.reverse.dropWhile (fun c => c == '/')).length ≤ s.reverse.length :=
    (List.dropWhile_sublist _).length_le
  simpa using h

theorem rstripSlash_ne_nil {s : PyStr} (h : ∃ c ∈ s, (c == '/') = false) :
    rstripSlash s ≠ [] := by
  unfold rstripSlash
  intro he
  rw [List.reverse_eq_nil_iff, List.dropWhile_eq_nil_iff] at he
  obtain ⟨c, hc, hne⟩ := h
  have hcon := he c (List.mem_reverse.mpr hc)
  rw [hne] at hcon
  cases hcon

theorem headUpToLastSlash_mem {p : PyStr} (h : '/' ∈ p) :
    '/' ∈ headUpToLastSlash p := by
  induction p with
  | nil => cases h
  | cons c rest ih =>
    unfold headUpToLastSlash
    by_cases hr : '/' ∈ rest
    · rw [if_pos hr]
      exact List.mem_cons_of_mem c (ih hr)
    · rw [if_neg hr]
      have hc : c = '/' := by
        rcases List.mem_cons.mp h with h' | h'
        · exact h'.symm
        · exact absurd h' hr
      rw [if_pos hc]
      simp

theorem headUpToLastSlash_length_lt {p : PyStr} (h0 : p ≠ [])
    (h1 : p.getLast? ≠ some '/') :
    (headUpToLastSlash p).length < p.length := by
  induction p with
  | nil => exact absurd rfl h0
  | cons c rest ih =>
    cases rest with
    | nil =>
      have hc : ¬ c = '/' := by
        intro he
        exact h1 (by rw [he]; rfl)
      unfold headUpToLastSlash
      rw [if_neg (by simp), if_neg hc]
      simp
    | cons d rest' =>
      have h1' : (d :: rest').getLast? ≠ some '/' := by
        rwa [List.getLast?_cons_cons] at h1
      unfold headUpToLastSlash
      by_cases hr : '/' ∈ d :: rest'
      · rw [if_pos hr]
        have hlt := ih (by simp) h1'
        simp only [List.length_cons] at hlt ⊢
        omega
      · rw [if_neg hr]
        by_cases hc : c = '/'
        · rw [if_pos hc]
          simp only [List.length_cons, List.length_nil]
          omega
        · rw [if_neg hc]
          simp only [List.length_nil, List.length_cons]
          omega

theorem pyDirname_length_lt {q : PyStr} (h0 : q ≠ []) (h1 : q.getLast? ≠ some '/') :
    (pyDirname q).length < q.length := by
  have hh := headUpToLastSlash_length_lt h0 h1
  unfold pyDirname
  split
  · exact hh
  · exact lt_of_le_of_lt (rstripSlash_length_le _) hh

theorem pyDirname_ne_nil {p : PyStr} (h : '/' ∈ p) : pyDirname p ≠ [] := by
  have hm := headUpToLastSlash_mem h
  unfold pyDirname
  split
  · exact List.ne_nil_of_mem hm
  · next hcond =>
    push_neg at hcond
    refine rstripSlash_ne_nil ?_
    rcases hcond with ⟨hne, hall⟩
    simp only [ne_eq, Bool.not_eq_true, List.all_eq_false] at hall
    obtain ⟨x, hx, hpx⟩ := hall
    exact ⟨x, hx, hpx⟩

theorem LTP_ne_nil (home : PyStr) : LTP home ≠ [] := by
  unfold LTP
  apply pyDirname_ne_nil
  unfold LOCAL_TARGET
  exact List.mem_append_right home (List.mem_cons_self '/' _)

theorem applyAliases_length_le (home s : PyStr) :
    (applyAliases home s).length ≤ s.length := by
  unfold applyAliases
  have h1 : (pyReplace s (LTP home) ['~']).length ≤ s.length := by
    apply pyReplace_length_le s (LTP home) ['~'] (LTP_ne_nil home)
    have hp : 0 < (LTP home).length := List.length_pos.mpr (LTP_ne_nil home)
    simpa using hp
  have h2 : (pyReplace (pyReplace s (LTP home) ['~']) MTP ('/' :: ['M'])).length ≤
      (pyReplace s (LTP home) ['~']).length :=
    pyReplace_length_le _ MTP ('/' :: ['M']) (by decide) (by decide)
  exact le_trans h2 h1

/-- C3 (counterexample): shortening an already-shortened path does not return
it unchanged — on a concrete mounted-tree path the second application drops
one more component. -/
theorem C3_not_idempotent :
    ultra_short_path homeW mountedPathW = "/M/gdrive/a".data ∧
    ultra_short_path homeW (ultra_short_path homeW mountedPathW) = "/M/gdrive".data ∧
    (ultra_short_path homeW (ultra_short_path homeW mountedPathW) ==
      ultra_short_path homeW mountedPathW) = false := by
  decide

/-- C3 (amended): the path-shortening transform is not idempotent: it drops
the final path component on every application, so whenever a shortened path
is non-empty and does not end in a separator, re-applying the transform
yields a strictly shorter string instead of returning it unchanged. -/
theorem C3_reapply_strictly_shortens (home p : PyStr)
    (h0 : ultra_short_path home p ≠ [])
    (h1 : (ultra_short_path home p).getLast? ≠ some '/') :
    (ultra_short_path home (ultra_short_path home p)).length <
      (ultra_short_path home p).length := by
  have hd := pyDirname_length_lt h0 h1
  calc (ultra_short_path home (ultra_short_path home p)).length
      ≤ (pyDirname (ultra_short_path home p)).length :=
        applyAliases_length_le home (pyDirname (ultra_short_path home p))
    _ < (ultra_short_path home p).length := hd

/-- C3 (witness): the amended claim at the concrete mounted-tree path. -/
theorem C3_reapply_strictly_shortens_witness :
    (ultra_short_path homeW (ultra_short_path homeW mountedPathW)).length <
      (ultra_short_path homeW mountedPathW).length :=
  C3_reapply_strictly_shortens homeW mountedPathW (by decide) (by decide)

theorem rstripSlash_append_slash {d : PyStr} (h0 : d ≠ []) (h1 : d.getLast? ≠ some '/') :
    rstripSlash (d ++ ['/']) = d := by
  unfold rstripSlash
  rw [List.reverse_append]
  simp only [List.reverse_cons, List.reverse_nil, List.nil_append, List.singleton_append]
  rw [List.dropWhile_cons_of_pos (by decide)]
  cases hd : d.reverse with
  | nil => exact absurd (by simpa using congrArg List.reverse hd) h0
  | cons e tl =>
    have he : d.getLast? = some e := by
      rw [← List.head?_reverse, hd]
      rfl
    have hne : ¬ ((e == '/') = true) := by
      intro hb
      have heq : e = '/' := by simpa using hb
      rw [heq] at he
      exact h1 he
    have hstep : List.dropWhile (fun c => c == '/') (e :: tl) = e :: tl :=
      List.dropWhile_cons_of_neg (by exact hne)
    rw [hstep, ← hd, List.reverse_reverse]

theorem headUpToLastSlash_append {d name : PyStr} (hn : ∀ c ∈ name, c ≠ '/') :
    headUpToLastSlash (d ++ '/' :: name) = d ++ ['/'] := by
  induction d with
  | nil =>
    simp only [List.nil_append]
    unfold headUpToLastSlash
    rw [if_neg (fun hmem => hn '/' hmem rfl), if_pos rfl]
  | cons c d' ih =>
    have hs : '/' ∈ d' ++ '/' :: name :=
      List.mem_append_right d' (List.mem_cons_self '/' name)
    simp only [List.cons_append]
    unfold headUpToLastSlash
    rw [if_pos hs, ih]

theorem all_slash_false_of_getLast {d : PyStr} (h0 : d ≠ []) (h1 : d.getLast? ≠ some '/') :
    ((d ++ ['/']).all (fun c => c == '/')) = false := by
  cases hb : ((d ++ ['/']).all (fun c => c == '/')) with
  | false => rfl
  | true =>
    exfalso
    have hall := List.all_eq_true.mp hb
    have hm := List.getLast_mem h0
    have hp := hall (d.getLast h0) (List.mem_append_left _ hm)
    have he : d.getLast h0 = '/' := by simpa using hp
    exact h1 (by rw [List.getLast?_eq_getLast d h0, he])

theorem pyDirname_append_name {d name : PyStr} (hn : ∀ c ∈ name, c ≠ '/')
    (hd0 : d ≠ []) (hd1 : d.getLast? ≠ some '/') :
    pyDirname (d ++ '/' :: name) = d := by
  unfold pyDirname
  rw [headUpToLastSlash_append hn]
  have hcond : ¬ (d ++ ['/'] = [] ∨ ((d ++ ['/']).all (fun c => c == '/')) = true) := by
    rintro (he | ha)
    · simp at he
    · rw [all_slash_false_of_getLast hd0 hd1] at ha
      cases ha
  rw [if_neg hcond, rstripSlash_append_slash hd0 hd1]

/-- C9: ultra_short_path is the alias substitution applied to the dirname of
its argument, so the final path component of a rendered from/to/deleted path
is dropped entirely, not merely prefix-substituted. -/
theorem C9_dirname_drops_component (home d name p : PyStr)
    (_hname : name ≠ []) (hn : ∀ c ∈ name, c ≠ '/')
    (hd0 : d ≠ []) (hd1 : d.getLast? ≠ some '/') :
    ultra_short_path home p = applyAliases home (pyDirname p) ∧
    ultra_short_path home (d ++ '/' :: name) = applyAliases home d := by
  refine ⟨rfl, ?_⟩
  unfold ultra_short_path
  rw [pyDirname_append_name hn hd0 hd1]

/-- C9 (witness): dropping the file-name component of a concrete path. -/
theorem C9_dirname_drops_component_witness :
    ultra_short_path homeW ("/Volumes/data".data ++ '/' :: "file.txt".data) =
      applyAliases homeW "/Volumes/data".data :=
  (C9_dirname_drops_component homeW "/Volumes/data".data "file.txt".data []
    (by decide) (by decide) (by decide) (by decide)).2

/-- C10 (witness): one unrecognized line before an empty line list. -/
theorem C10_unrecognized_line_frame_witness :
    (processLines homeW ["garbage line".data]).1 = (processLines homeW []).1 ∧
    (processLines homeW ["garbage line".data]).2 =
      pyStrip "garbage line".data :: (processLines homeW []).2 :=
  C10_unrecognized_line_frame homeW "garbage line".data []
    (by decide) (by decide) (by decide) (by decide) (by decide)

end GSync
